import Mathlib

/-!
Verification of the Lapathon schema-driven ingestion pipeline.

This file gives a shallow embedding, in Lean 4, of the parts of the
pipeline that the checked claims are about:

* the JSONPath-lite path engine (`ingestion_job/app/services/schema/utils.py`,
  `_parse_path` / `jp_values` / `jp_first`),
* the predicate engine (`eval_predicate` in the same file),
* the transform helpers (`apply_transforms` in
  `ingestion_job/app/services/pipeline.py` and `apply_transformation` in
  `ingestion_job/app/services/schema/transform.py`),
* the variant resolver (`resolve_variant_impl` in
  `ingestion_job/app/services/schema/service.py`),
* the mapper, identity finalizer and relationship builder
  (`IngestionPipeline._map_entities`, `_finalize_entity_id`,
  `_build_relationships` in `ingestion_job/app/services/pipeline.py`),
* the JSON graph sink (`JsonGraphSink` in
  `strict_graph_builder/app/services/sinks/json_store.py`) and the
  post-canonicalization slice of `IngestionPipeline.ingest_file`,
* the JSON canonicalization adapter (`JsonAdapter.process` in
  `ingestion_job/app/services/canonical/adapter_json.py`), including a
  bit-accurate SHA-256.

Python values flowing through the pipeline (the output of `json.loads`)
are embedded as the tree type `J`; Python `None` is `J.null`.  Python
dicts are association lists in insertion order (lookup finds the first,
and only, binding of a key; update rewrites in place).  Machine-level
caveats (Unicode case folding beyond ASCII, float literals, regular
expressions with metacharacters) are noted at the definitions that model
them.
-/

/-- Canonical tree: the embedding of the Python values produced by
`json.loads` and consumed by the path engine (`Scalar | Sequence | Mapping`
in the spec's words).  `J.null` is Python `None`. -/
inductive J where
  | null
  | bool (b : Bool)
  | int (n : Int)
  | str (s : String)
  | arr (xs : List J)
  | obj (fields : List (String × J))

mutual

/-- Structural equality on trees, the embedding of Python `==` on parsed
JSON values. -/
def jBeq : J → J → Bool
  | .null, .null => true
  | .bool a, .bool b => a == b
  | .int a, .int b => a == b
  | .str a, .str b => a == b
  | .arr a, .arr b => jBeqList a b
  | .obj a, .obj b => jBeqMap a b
  | _, _ => false

/-- Elementwise equality of tree lists. -/
def jBeqList : List J → List J → Bool
  | [], [] => true
  | x :: xs, y :: ys => jBeq x y && jBeqList xs ys
  | _, _ => false

/-- Fieldwise equality of tree mappings (Python compares dicts by content;
the pipeline only ever compares values that originate from ordered parses,
for which fieldwise comparison coincides). -/
def jBeqMap : List (String × J) → List (String × J) → Bool
  | [], [] => true
  | (k, v) :: xs, (k', v') :: ys => k == k' && jBeq v v' && jBeqMap xs ys
  | _, _ => false

end

instance : BEq J := ⟨jBeq⟩

/-- Dictionary lookup, the embedding of Python `d.get(k)` / `k in d` on a
dict held as an insertion-ordered association list. -/
def jLookup (fs : List (String × J)) (k : String) : Option J :=
  match fs with
  | [] => none
  | (k', v) :: rest => if k' == k then some v else jLookup rest k

/-- Dictionary update `d[k] = v`: an existing binding is rewritten in
place (Python dicts keep the original position), a new key is appended. -/
def setKey (fs : List (String × J)) (k : String) (v : J) : List (String × J) :=
  match fs with
  | [] => [(k, v)]
  | (k', v') :: rest => if k' == k then (k, v) :: rest else (k', v') :: setKey rest k v

/-- Generic association-list lookup for string-keyed registries
(`dict.get` on `entity_schemas`). -/
def lookupStr {α : Type} (fs : List (String × α)) (k : String) : Option α :=
  match fs with
  | [] => none
  | (k', v) :: rest => if k' == k then some v else lookupStr rest k

/-- Whitespace class of Python's `\s` (and of `str.strip`): space, tab,
newline, carriage return, vertical tab, form feed. -/
def isWs (c : Char) : Bool :=
  c == ' ' || c == '\t' || c == '\n' || c == '\r' || c == '\x0b' || c == '\x0c'

/-- Python `str.strip()`: drop leading and trailing whitespace. -/
def pyStrip (s : String) : String :=
  ⟨((s.data.dropWhile isWs).reverse.dropWhile isWs).reverse⟩

/-- Run-collapsing core of `normalize_ws`: each maximal whitespace run
becomes a single space.  The flag records whether the previous character
was whitespace. -/
def collapseWsAux : Bool → List Char → List Char
  | _, [] => []
  | prevWs, c :: rest =>
    if isWs c then
      if prevWs then collapseWsAux true rest
      else ' ' :: collapseWsAux true rest
    else c :: collapseWsAux false rest

/-- Embedding of `normalize_ws` (pipeline.py): `re.sub(r"\s+", " ", s).strip()`. -/
def normalizeWs (s : String) : String :=
  pyStrip ⟨collapseWsAux false s.data⟩

/-- Single-quote character, used by the Python `repr` rendering below. -/
def pyQuote : String := String.singleton (Char.ofNat 39)

mutual

/-- Embedding of Python `str(value)` for parsed JSON values: identity on
strings, `None`/`True`/`False` for the singletons, decimal for ints, and
the `repr`-based rendering for containers. -/
def pyStr : J → String
  | .null => "None"
  | .bool true => "True"
  | .bool false => "False"
  | .int n => toString n
  | .str s => s
  | .arr xs => "[" ++ ", ".intercalate (pyReprList xs) ++ "]"
  | .obj fs => "\x7b" ++ ", ".intercalate (pyReprMap fs) ++ "\x7d"

/-- Embedding of Python `repr(value)` for parsed JSON values (strings are
single-quoted; escaping inside the quotes is not modelled, which is exact
for strings free of quotes and backslashes). -/
def pyRepr : J → String
  | .null => "None"
  | .bool true => "True"
  | .bool false => "False"
  | .int n => toString n
  | .str s => pyQuote ++ s ++ pyQuote
  | .arr xs => "[" ++ ", ".intercalate (pyReprList xs) ++ "]"
  | .obj fs => "\x7b" ++ ", ".intercalate (pyReprMap fs) ++ "\x7d"

/-- Renders each element of a list with `pyRepr`. -/
def pyReprList : List J → List String
  | [] => []
  | x :: xs => pyRepr x :: pyReprList xs

/-- Renders each binding of a mapping with `pyRepr`. -/
def pyReprMap : List (String × J) → List String
  | [] => []
  | (k, v) :: xs => (pyQuote ++ k ++ pyQuote ++ ": " ++ pyRepr v) :: pyReprMap xs

end

/-- Parses a nonempty all-digit character list as a number (helper for
`pyInt`). -/
def digitsToNat : List Char → Option Nat
  | [] => none
  | cs => go cs 0
where
  go : List Char → Nat → Option Nat
  | [], acc => some acc
  | c :: rest, acc =>
    if c.isDigit then go rest (acc * 10 + (c.toNat - 48)) else none

/-- Embedding of Python `int(s)` on strings: strip whitespace, optional
sign, decimal digits; `none` models the `ValueError` that
`apply_transforms` catches (digit-group underscores are not modelled). -/
def pyInt (s : String) : Option Int :=
  let cs := ((s.data.dropWhile isWs).reverse.dropWhile isWs).reverse
  match cs with
  | '-' :: rest => (digitsToNat rest).map (fun n => -(n : Int))
  | '+' :: rest => (digitsToNat rest).map (fun n => (n : Int))
  | _ => (digitsToNat cs).map (fun n => (n : Int))

/-- Path tokens produced by `_parse_path`: `$` (root), `.name`, `[n]`,
`[*]`.  Paths are embedded post-tokenization: the string `"$.a[0][*]"`
is the list `[root, key "a", idx 0, wild]`. -/
inductive Tok where
  | root
  | key (name : String)
  | idx (n : Nat)
  | wild
deriving DecidableEq, Repr

/-- One step of the `jp_values` token loop.  A `root` token reaching the
loop (it is only stripped in leading position) hits the `else: raise
ValueError` branch of the source, embedded as an `Except.error`. -/
def jpStep : Tok → List J → Except String (List J)
  | .root, _ => .error "unsupported token: root"
  | .key n, cur =>
    .ok (cur.filterMap (fun item =>
      match item with
      | J.obj fs => jLookup fs n
      | _ => none))
  | .idx i, cur =>
    .ok (cur.filterMap (fun item =>
      match item with
      | J.arr xs => xs[i]?
      | _ => none))
  | .wild, cur =>
    .ok (cur.flatMap (fun item =>
      match item with
      | J.arr xs => xs
      | J.null => []
      | x => [x]))

/-- Token loop of `jp_values`: apply each token to the current value
list, stopping early (with the empty result) as soon as the list empties
— the `if not cur: break` of the source. -/
def jpLoop : List Tok → List J → Except String (List J)
  | [], cur => .ok cur
  | t :: ts, cur =>
    match jpStep t cur with
    | .error e => .error e
    | .ok nxt => if nxt.isEmpty then .ok [] else jpLoop ts nxt

/-- Embedding of `jp_values` (utils.py): strip one leading root token,
run the loop from the singleton list, and filter `None` out of the final
result. -/
def jpValues (obj : J) (tokens : List Tok) : Except String (List J) :=
  let ts := match tokens with
    | Tok.root :: rest => rest
    | other => other
  match jpLoop ts [obj] with
  | .error e => .error e
  | .ok cur => .ok (cur.filter (fun x => !(x == J.null)))

/-- Embedding of `jp_first`: the head of `jp_values`, with Python `None`
(= `J.null`) for the empty result. -/
def jpFirst (obj : J) (tokens : List Tok) : Except String J :=
  match jpValues obj tokens with
  | .error e => .error e
  | .ok vs => .ok (vs.headD J.null)

/-- Substring test on character lists: some suffix of the haystack starts
with the needle. -/
def hasSub (hay pat : List Char) : Bool :=
  match hay with
  | [] => pat.isEmpty
  | _ :: t => pat.isPrefixOf hay || hasSub t pat

/-- Model of `re.search(pattern, s) is not None` for patterns free of
regex metacharacters, where the search is a plain substring test (the
empty pattern matches everything, as in `re`). -/
def reSearchB (pat s : String) : Bool := hasSub s.data pat.data

/-- A predicate rule, the embedding of one rule dict of a
`match_predicate`.  `type`/`path` are `none` when the key is missing or
falsy (the source checks `if not rule_type or not path`); `value` is
`rule.get("value")` with missing collapsed to `J.null` (Python `None`);
`values` is `rule.get("values") or []`; `pattern` is
`rule.get("pattern") or ""`. -/
structure Rule where
  type : Option String
  path : Option (List Tok)
  value : J := J.null
  values : List J := []
  pattern : String := ""

/-- Rule kinds the `all` loop of `eval_predicate` can score. -/
def recognizedAll (t : String) : Bool :=
  t == "json_exists" || t == "json_equals" || t == "json_in" || t == "json_regex"

/-- Path rendering used in diagnostic reason strings (the source
interpolates the original path string; this renders the token list the
same way). -/
def renderTok : Tok → String
  | .root => "$"
  | .key n => "." ++ n
  | .idx i => "[" ++ toString i ++ "]"
  | .wild => "[*]"

/-- Renders a token list back to its path-string form. -/
def renderPath (ts : List Tok) : String :=
  String.join (ts.map renderTok)

/-- Result of one of `eval_predicate`'s two rule loops: an early `return
False` with the score and reasons so far, or normal completion. -/
inductive LoopRes where
  | early (score : Nat) (reasons : List String)
  | done (score : Nat) (reasons : List String)

/-- The rule-kind dispatch of the `all` loop, computing the `ok` flag
for one rule from the extracted value (false for unrecognized kinds). -/
def allRuleOk (t : String) (r : Rule) (val : J) : Bool :=
  if t == "json_exists" then !(val == J.null)
  else if t == "json_equals" then val == r.value
  else if t == "json_in" then r.values.any (fun w => val == w)
  else if t == "json_regex" then
    (match val with
     | J.str sv => reSearchB r.pattern sv
     | _ => false)
  else false

/-- Embedding of the `all` loop of `eval_predicate`: recognized rules
that hold add one to the score; a recognized rule that fails returns
early; a rule with a missing type or path, or of an unrecognized kind,
appends a reason and continues without scoring.  `jp_first` is evaluated
before the kind dispatch, as in the source, so its exceptions propagate
for every rule that has a type and path. -/
def allLoop (doc : J) : List Rule → Nat → List String → Except String LoopRes
  | [], s, rs => .ok (.done s rs)
  | r :: rest, s, rs =>
    match r.type, r.path with
    | some t, some pth =>
      (match jpFirst doc pth with
       | .error e => .error e
       | .ok val =>
         if !(recognizedAll t) then
           allLoop doc rest s (rs ++ ["unsupported_type:" ++ t])
         else if allRuleOk t r val then allLoop doc rest (s + 1) rs
         else .ok (.early s (rs ++ ["failed_" ++ t ++ ":" ++ renderPath pth])))
    | _, _ => allLoop doc rest s (rs ++ ["bad_rule_missing_type_or_path"])

/-- The rule-kind dispatch of the `none` loop: only `json_exists` and
`json_equals` can hit. -/
def noneRuleHit (t : String) (r : Rule) (val : J) : Bool :=
  if t == "json_exists" then !(val == J.null)
  else if t == "json_equals" then val == r.value
  else false

/-- Embedding of the `none` loop of `eval_predicate`: only `json_exists`
and `json_equals` can trigger the non-match; a hit returns early with a
reason; other kinds and malformed rules are skipped silently. -/
def noneLoop (doc : J) : List Rule → Nat → List String → Except String LoopRes
  | [], s, rs => .ok (.done s rs)
  | r :: rest, s, rs =>
    match r.type, r.path with
    | some t, some pth =>
      (match jpFirst doc pth with
       | .error e => .error e
       | .ok val =>
         if noneRuleHit t r val then
           .ok (.early s (rs ++ ["none_failed_" ++ t ++ ":" ++ renderPath pth]))
         else noneLoop doc rest s rs)
    | _, _ => noneLoop doc rest s rs

/-- A match predicate: an `all` clause and a `none` clause. -/
structure MatchPred where
  all : List Rule := []
  none : List Rule := []

/-- Embedding of `eval_predicate` (utils.py): run the `all` loop, then
the `none` loop, then declare the predicate matched exactly when the
`all` clause is empty or the score equals its length. -/
def evalPredicate (doc : J) (p : MatchPred) : Except String (Bool × Nat × List String) :=
  match allLoop doc p.all 0 [] with
  | .error e => .error e
  | .ok (.early s rs) => .ok (false, s, rs)
  | .ok (.done s rs) =>
    match noneLoop doc p.none s rs with
    | .error e => .error e
    | .ok (.early s' rs') => .ok (false, s', rs')
    | .ok (.done s' rs') => .ok (p.all.isEmpty || s' == p.all.length, s', rs')

/-- Word modulus of SHA-256's 32-bit arithmetic. -/
def w32 : Nat := 4294967296

/-- Addition modulo 2^32. -/
def add32 (a b : Nat) : Nat := (a + b) % w32

/-- Right rotation of a 32-bit word.  The two shifted parts occupy
disjoint bit ranges, so their sum is their bitwise or. -/
def rotr (n x : Nat) : Nat := ((x >>> n) + (x <<< (32 - n))) % w32

/-- Big sigma-0 of the SHA-256 compression function. -/
def bsig0 (x : Nat) : Nat := (rotr 2 x) ^^^ (rotr 13 x) ^^^ (rotr 22 x)

/-- Big sigma-1 of the SHA-256 compression function. -/
def bsig1 (x : Nat) : Nat := (rotr 6 x) ^^^ (rotr 11 x) ^^^ (rotr 25 x)

/-- Small sigma-0 of the SHA-256 message schedule. -/
def ssig0 (x : Nat) : Nat := (rotr 7 x) ^^^ (rotr 18 x) ^^^ (x >>> 3)

/-- Small sigma-1 of the SHA-256 message schedule. -/
def ssig1 (x : Nat) : Nat := (rotr 17 x) ^^^ (rotr 19 x) ^^^ (x >>> 10)

/-- Choice function of SHA-256 (complement taken by xor with the 32-bit
mask). -/
def shaCh (x y z : Nat) : Nat := (x &&& y) ^^^ ((x ^^^ 4294967295) &&& z)

/-- Majority function of SHA-256. -/
def shaMaj (x y z : Nat) : Nat := (x &&& y) ^^^ (x &&& z) ^^^ (y &&& z)

/-- The 64 SHA-256 round constants. -/
def shaK : Array Nat := #[
  1116352408, 1899447441, 3049323471, 3921009573, 961987163, 1508970993,
  2453635748, 2870763221, 3624381080, 310598401, 607225278, 1426881987,
  1925078388, 2162078206, 2614888103, 3248222580, 3835390401, 4022224774,
  264347078, 604807628, 770255983, 1249150122, 1555081692, 1996064986,
  2554220882, 2821834349, 2952996808, 3210313671, 3336571891, 3584528711,
  113926993, 338241895, 666307205, 773529912, 1294757372, 1396182291,
  1695183700, 1986661051, 2177026350, 2456956037, 2730485921, 2820302411,
  3259730800, 3345764771, 3516065817, 3600352804, 4094571909, 275423344,
  430227734, 506948616, 659060556, 883997877, 958139571, 1322822218,
  1537002063, 1747873779, 1955562222, 2024104815, 2227730452, 2361852424,
  2428436474, 2756734187, 3204031479, 3329325298]

/-- The SHA-256 initial hash value. -/
def shaH0 : List Nat := [
  1779033703, 3144134277, 1013904242, 2773480762,
  1359893119, 2600822924, 528734635, 1541459225]

/-- SHA-256 padding: append 0x80, zero bytes, and the 64-bit big-endian
bit length, to a multiple of 64 bytes. -/
def shaPad (msg : List Nat) : List Nat :=
  let len := msg.length
  let bitLen := 8 * len
  let k := (64 - ((len + 9) % 64)) % 64
  msg ++ [0x80] ++ List.replicate k 0 ++
    [(bitLen >>> 56) % 256, (bitLen >>> 48) % 256, (bitLen >>> 40) % 256, (bitLen >>> 32) % 256,
     (bitLen >>> 24) % 256, (bitLen >>> 16) % 256, (bitLen >>> 8) % 256, bitLen % 256]

/-- Big-endian 4-byte grouping of the padded message into 32-bit words. -/
def shaWords : List Nat → List Nat
  | b0 :: b1 :: b2 :: b3 :: rest => (b0 <<< 24 + b1 <<< 16 + b2 <<< 8 + b3) :: shaWords rest
  | _ => []

/-- Splits a word list into 16-word blocks; the count argument is the
number of blocks, making the recursion structural. -/
def shaChunksN : Nat → List Nat → List (List Nat)
  | 0, _ => []
  | n + 1, ws => ws.take 16 :: shaChunksN n (ws.drop 16)

/-- All 16-word blocks of a padded message's word list. -/
def shaChunks (ws : List Nat) : List (List Nat) := shaChunksN (ws.length / 16) ws

/-- Message-schedule extension of one block from 16 to 64 words. -/
def shaSchedule (w16 : List Nat) : Array Nat :=
  (List.range 48).foldl
    (fun w i =>
      let t := add32 (add32 (ssig1 (w.getD (i + 14) 0)) (w.getD (i + 9) 0))
                     (add32 (ssig0 (w.getD (i + 1) 0)) (w.getD i 0))
      w.push t)
    w16.toArray

/-- Working state of the compression function. -/
structure ShaState where
  a : Nat
  b : Nat
  c : Nat
  d : Nat
  e : Nat
  f : Nat
  g : Nat
  h : Nat

/-- One round of the SHA-256 compression function. -/
def shaRound (ws : Array Nat) (s : ShaState) (i : Nat) : ShaState :=
  let t1 := add32 (add32 (add32 s.h (bsig1 s.e)) (add32 (shaCh s.e s.f s.g) (shaK.getD i 0))) (ws.getD i 0)
  let t2 := add32 (bsig0 s.a) (shaMaj s.a s.b s.c)
  ⟨add32 t1 t2, s.a, s.b, s.c, add32 s.d t1, s.e, s.f, s.g⟩

/-- Compression of one block into the running hash value. -/
def shaCompress (hv : List Nat) (block : List Nat) : List Nat :=
  let ws := shaSchedule block
  let s0 : ShaState := ⟨hv.getD 0 0, hv.getD 1 0, hv.getD 2 0, hv.getD 3 0,
                        hv.getD 4 0, hv.getD 5 0, hv.getD 6 0, hv.getD 7 0⟩
  let s := (List.range 64).foldl (shaRound ws) s0
  [add32 (hv.getD 0 0) s.a, add32 (hv.getD 1 0) s.b, add32 (hv.getD 2 0) s.c,
   add32 (hv.getD 3 0) s.d, add32 (hv.getD 4 0) s.e, add32 (hv.getD 5 0) s.f,
   add32 (hv.getD 6 0) s.g, add32 (hv.getD 7 0) s.h]

/-- SHA-256 digest of a byte list, as eight 32-bit words. -/
def shaDigestWords (msg : List Nat) : List Nat :=
  (shaChunks (shaWords (shaPad msg))).foldl shaCompress shaH0

/-- Lower-case hex digit. -/
def hexChar (n : Nat) : Char :=
  if n < 10 then Char.ofNat (48 + n) else Char.ofNat (87 + n)

/-- Eight-hex-digit rendering of one 32-bit word. -/
def wordHex (x : Nat) : List Char :=
  [hexChar ((x >>> 28) % 16), hexChar ((x >>> 24) % 16), hexChar ((x >>> 20) % 16),
   hexChar ((x >>> 16) % 16), hexChar ((x >>> 12) % 16), hexChar ((x >>> 8) % 16),
   hexChar ((x >>> 4) % 16), hexChar (x % 16)]

/-- SHA-256 hex digest of a byte list: the embedding of
`hashlib.sha256(b).hexdigest()`. -/
def sha256Hex (msg : List Nat) : String :=
  ⟨(shaDigestWords msg).foldr (fun w acc => wordHex w ++ acc) []⟩

/-- UTF-8 encoding of one character. -/
def charUtf8 (c : Char) : List Nat :=
  let n := c.toNat
  if n < 0x80 then [n]
  else if n < 0x800 then [0xC0 + (n >>> 6), 0x80 + (n &&& 0x3F)]
  else if n < 0x10000 then [0xE0 + (n >>> 12), 0x80 + ((n >>> 6) &&& 0x3F), 0x80 + (n &&& 0x3F)]
  else [0xF0 + (n >>> 18), 0x80 + ((n >>> 12) &&& 0x3F), 0x80 + ((n >>> 6) &&& 0x3F), 0x80 + (n &&& 0x3F)]

/-- UTF-8 bytes of a string (`s.encode("utf-8")`). -/
def utf8Bytes (s : String) : List Nat := (s.data.map charUtf8).flatten

/-- The embedding of `hashlib.sha256(s.encode()).hexdigest()` on a
string. -/
def sha256String (s : String) : String := sha256Hex (utf8Bytes s)

/-- Embedding of `apply_transforms` (pipeline.py lines 44-60): fold the
named transforms over the value; a `None` value short-circuits; the
string transforms leave non-string values unchanged; `to_int` parses
`int(str(v))` and yields `None` on failure.  Case folding is modelled
for ASCII. -/
def applyTransforms : J → List String → J
  | v, [] => v
  | v, t :: ts =>
    if v == J.null then J.null
    else
      let v' :=
        if t == "trim" then
          (match v with | J.str s => J.str (pyStrip s) | other => other)
        else if t == "collapse_spaces" then
          (match v with | J.str s => J.str (normalizeWs s) | other => other)
        else if t == "upper" then
          (match v with | J.str s => J.str s.toUpper | other => other)
        else if t == "lower" then
          (match v with | J.str s => J.str s.toLower | other => other)
        else if t == "to_int" then
          (match pyInt (pyStr v) with | some n => J.int n | none => J.null)
        else v
      applyTransforms v' ts

/-- A transform definition dict, the embedding of the `transform_def`
argument of `apply_transformation`: `type` and `pattern` are `none` when
the key is missing; `group` defaults to 1, `delimiter` to `","`, `index`
to 0; `hasDefault` records whether the `"default"` key is present and
`dflt` its value. -/
structure TransformDef where
  type : Option String := none
  pattern : Option String := none
  group : Nat := 1
  delimiter : String := ","
  index : Int := 0
  mapping : List (String × J) := []
  hasDefault : Bool := false
  dflt : J := J.null

/-- Embedding of `apply_transformation` (transform.py).  A `None` value
yields `None`.  For `regex` the search is modelled for literal
(metacharacter-free) patterns: a hit has no capture groups, so
`match.group(group)` raises `IndexError` for `group ≥ 1` — caught and
turned into `None` — and returns the matched substring (the pattern
itself) for group 0.  When the branch guards fail (non-string input,
missing pattern) control falls through to the final `return value`.
`split` with an empty delimiter is not modelled (Python raises there). -/
def applyTransformation (value : J) (td : TransformDef) : J :=
  if value == J.null then J.null
  else if td.type == some "regex" then
    (match value, td.pattern with
     | J.str s, some pat =>
       if pat == "" then J.str s
       else if hasSub s.data pat.data then
         (if td.group == 0 then J.str pat else J.null)
       else J.null
     | other, _ => other)
  else if td.type == some "split" then
    (match value with
     | J.str s =>
       let parts := s.splitOn td.delimiter
       if 0 ≤ td.index ∧ td.index < (parts.length : Int) then
         J.str (pyStrip (parts.getD td.index.toNat ""))
       else J.null
     | other => other)
  else if td.type == some "map" then
    (match jLookup td.mapping (pyStr value) with
     | some v => v
     | none => if td.hasDefault then td.dflt else value)
  else if td.type == some "clean" then
    (match value with
     | J.str s => J.str (normalizeWs s)
     | other => other)
  else value

/-- One mapping target `{entity, property, entity_ref}`
(models.schemas.MappingTarget).  `entity_ref` is `none` when absent or
empty — the source falls back with `t.entity_ref or label`. -/
structure MappingTarget where
  entity : String
  property : String
  entity_ref : Option String := none

/-- One variant mapping (models.schemas.VariantMapping), restricted to
the fields `_map_entities` reads.  `foreach` is `m.scope.get("foreach")`
with missing-or-falsy collapsed to `none`; `json_path` is present exactly
when `"json_path" in m.source`; `mapping_id` is `none` when absent or
empty (the source falls back with `m.mapping_id or 'map'`). -/
structure VariantMapping where
  mapping_id : Option String := none
  foreach : Option (List Tok) := none
  json_path : Option (List Tok) := none
  targets : List MappingTarget := []

/-- A register-schema variant (models.schemas.RegisterSchemaVariant),
restricted to the fields the resolver and mapper read. -/
structure Variant where
  variant_id : String
  match_predicate : MatchPred
  mappings : List VariantMapping := []

/-- A register schema (models.schemas.RegisterSchema), restricted to the
fields `resolve_variant_impl` reads.  Header fields are carried but — as
the source comments — never used for matching. -/
structure RegisterSchema where
  registry_code : String
  variants : List Variant

/-- One identity key of an entity schema: `when.get("exists", [])` and
the ordered property list whose values are joined into the identity
string. -/
structure IdentityKey where
  whenExists : List String := []
  properties : List String := []

/-- An entity schema (models.schemas.EntitySchema), restricted to the
fields `_finalize_entity_id` reads. -/
structure EntitySchema where
  entity_name : String
  identity_keys : List IdentityKey := []

/-- An in-flight entity instance (models/graph.py EntityInstance). -/
structure EntityInstance where
  label : String
  entity_ref : String
  scope_root : String
  scope_id : String
  properties : List (String × J) := []
  node_id : Option String := none

/-- Presence test `inst.properties.get(f) is not None`: the key is bound
and its value is not `None`. -/
def propPresent (props : List (String × J)) (f : String) : Bool :=
  match jLookup props f with
  | some v => !(v == J.null)
  | none => false

/-- The `matched_kv` computation of `_finalize_entity_id`: walk identity
keys in declaration order; the first key whose `when.exists` fields are
all present contributes `str(properties.get(p))` for each of its
properties (missing properties render as `"None"`); no match leaves the
list empty.  A matching key with an empty property list also yields the
empty list, which the caller treats as no match (`if matched_kv:`). -/
def firstKeyParts (keys : List IdentityKey) (props : List (String × J)) : List String :=
  match keys with
  | [] => []
  | k :: rest =>
    if k.whenExists.all (propPresent props) then
      k.properties.map (fun p => pyStr ((jLookup props p).getD J.null))
    else firstKeyParts rest props

/-- Embedding of `IngestionPipeline._finalize_entity_id` (pipeline.py
lines 302-327): no entity schema for the label, or no matching identity
key, falls back to the doc-scoped id; otherwise the node id is the
SHA-256 hex digest of the identity values joined with `"|"`. -/
def finalizeEntityId (entitySchemas : List (String × EntitySchema)) (docId : String)
    (inst : EntityInstance) : EntityInstance :=
  match lookupStr entitySchemas inst.label with
  | none => { inst with node_id := some ("DOCSCOPED:" ++ docId ++ ":" ++ inst.scope_id) }
  | some es =>
    if (firstKeyParts es.identity_keys inst.properties).isEmpty then
      { inst with node_id := some ("DOCSCOPED:" ++ docId ++ ":" ++ inst.scope_id) }
    else
      { inst with node_id := some (sha256String (String.intercalate "|" (firstKeyParts es.identity_keys inst.properties))) }

/-- First-match in-place update of the instance buffer, the embedding of
`next((i for i in instances if i.scope_id == inst_key), None)` followed
by mutation of the found instance. -/
def updateInst : List EntityInstance → String → (EntityInstance → EntityInstance) → List EntityInstance
  | [], _, _ => []
  | i :: rest, k, f =>
    if i.scope_id == k then f i :: rest else i :: updateInst rest k f

/-- The per-target body of `_map_entities`: find or create the instance
keyed by `(scope_root, entity_ref)`, assign the property when the value
is not `None` (overwriting any earlier value), and stamp
`source_doc_id`. -/
def applyTarget (docId scopeRoot : String) (val : J) (t : MappingTarget)
    (buf : List EntityInstance) : List EntityInstance :=
  let entityRef := t.entity_ref.getD t.entity
  let instKey := scopeRoot ++ ":" ++ entityRef
  let buf' :=
    if buf.any (fun i => i.scope_id == instKey) then buf
    else buf ++ [{ label := t.entity, entity_ref := entityRef, scope_root := scopeRoot,
                   scope_id := instKey, properties := [], node_id := none }]
  updateInst buf' instKey (fun i =>
    let props := if val == J.null then i.properties else setKey i.properties t.property val
    { i with properties := setKey props "source_doc_id" (J.str docId) })

/-- The target loop of `_map_entities`.  The source value is recomputed
from `m.source` for every target, exactly as in the source. -/
def mapTargets (docId scopeRoot : String) (item : J) (m : VariantMapping) :
    List MappingTarget → List EntityInstance → Except String (List EntityInstance)
  | [], buf => .ok buf
  | t :: ts, buf =>
    match (match m.json_path with
           | some p => jpFirst item p
           | none => .ok J.null) with
    | .error e => .error e
    | .ok val => mapTargets docId scopeRoot item m ts (applyTarget docId scopeRoot val t buf)

/-- The scope-item loop of `_map_entities`: each item gets the scope root
`f"{doc_id}:{m.mapping_id or 'map'}:{idx}"`. -/
def mapItems (docId : String) (m : VariantMapping) :
    List J → Nat → List EntityInstance → Except String (List EntityInstance)
  | [], _, buf => .ok buf
  | item :: rest, idx, buf =>
    let scopeRoot := docId ++ ":" ++ (m.mapping_id.getD "map") ++ ":" ++ toString idx
    match mapTargets docId scopeRoot item m m.targets buf with
    | .error e => .error e
    | .ok buf' => mapItems docId m rest (idx + 1) buf'

/-- The mapping loop of `_map_entities`: a `foreach` scope is evaluated
with the path engine, an absent scope uses the whole document as the
single scope item. -/
def mapMappings (docId : String) (doc : J) :
    List VariantMapping → List EntityInstance → Except String (List EntityInstance)
  | [], buf => .ok buf
  | m :: ms, buf =>
    match (match m.foreach with
           | some p => jpValues doc p
           | none => .ok [doc]) with
    | .error e => .error e
    | .ok rootItems =>
      match mapItems docId m rootItems 0 buf with
      | .error e => .error e
      | .ok buf' => mapMappings docId doc ms buf'

/-- Embedding of `IngestionPipeline._map_entities` (pipeline.py lines
245-300): run all mappings over the canonical document, then finalize
every instance's node id. -/
def mapEntities (entitySchemas : List (String × EntitySchema)) (docId : String)
    (doc : J) (v : Variant) : Except String (List EntityInstance) :=
  match mapMappings docId doc v.mappings [] with
  | .error e => .error e
  | .ok insts => .ok (insts.map (finalizeEntityId entitySchemas docId))

/-- One relationship property map entry (`RelPropertyMap`): `value` is
`J.null` when absent (`p.value is not None` guards the assignment). -/
structure RelPropertyMap where
  name : String
  value : J := J.null

/-- One creation rule of a relationship schema, restricted to the fields
`_build_relationships` reads (`rule.bind.from_.entity_ref`,
`rule.bind.to.entity_ref`, `rule.properties`). -/
structure CreationRule where
  fromRef : String
  toRef : String
  properties : List RelPropertyMap := []

/-- A relationship schema, restricted to the fields
`_build_relationships` reads (`rs.neo4j.type`, `rs.relationship_name`,
`rs.creation_rules`). -/
structure RelationshipSchema where
  relationship_name : String
  relType : String
  creation_rules : List CreationRule := []

/-- A relationship record (models/graph.py RelRecord).  The endpoint ids
are copied from `EntityInstance.node_id`, so they are `Option String`
exactly as in the dataclass. -/
structure RelRecord where
  rel_type : String
  from_label : String
  from_id : Option String
  to_label : String
  to_id : Option String
  properties : List (String × J)
  source_doc : String
  scope_root : String
  name : String

/-- The distinct `scope_root` values of the instance list, in first-
occurrence order — the key set of the `by_scope` dict built with
`setdefault`. -/
def groupKeys (es : List EntityInstance) : List String :=
  es.foldl (fun ks e => if ks.any (fun k => k == e.scope_root) then ks else ks ++ [e.scope_root]) []

/-- The relationship property dict: `{"source_doc": doc_id}` then the
rule's non-`None` values in order. -/
def relProps (docId : String) (rule : CreationRule) : List (String × J) :=
  rule.properties.foldl
    (fun acc p => if p.value == J.null then acc else setKey acc p.name p.value)
    [("source_doc", J.str docId)]

/-- Embedding of `IngestionPipeline._build_relationships` (pipeline.py
lines 329-370): per schema and creation rule, group the document's
instances by `scope_root` and emit the cross product of the instances
bound to `from_ref` and `to_ref` within each group. -/
def buildRelationships (relSchemas : List RelationshipSchema) (docId : String)
    (entities : List EntityInstance) : List RelRecord :=
  relSchemas.flatMap (fun rs =>
    rs.creation_rules.flatMap (fun rule =>
      (groupKeys entities).flatMap (fun scopeRoot =>
        let scopeEnts := entities.filter (fun e => e.scope_root == scopeRoot)
        let fromNodes := scopeEnts.filter (fun e => e.entity_ref == rule.fromRef)
        let toNodes := scopeEnts.filter (fun e => e.entity_ref == rule.toRef)
        fromNodes.flatMap (fun fn =>
          toNodes.map (fun tn =>
            { rel_type := rs.relType, from_label := fn.label, from_id := fn.node_id,
              to_label := tn.label, to_id := tn.node_id,
              properties := relProps docId rule, source_doc := docId,
              scope_root := scopeRoot, name := rs.relationship_name })))))

/-- Candidate collection over one schema's variants: evaluate each match
predicate (errors propagate, as Python exceptions would) and keep the
matched ones with their scores, in declaration order. -/
def collectVariants (doc : J) : List Variant → Except String (List (Variant × Nat))
  | [] => .ok []
  | v :: vs =>
    match evalPredicate doc v.match_predicate with
    | .error e => .error e
    | .ok (matched, score, _reasons) =>
      match collectVariants doc vs with
      | .error e => .error e
      | .ok more => .ok ((if matched then [(v, score)] else []) ++ more)

/-- Candidate collection over all register schemas — the candidate list
of `resolve_variant_impl`, in registry and variant declaration order.
Header codes are not consulted (that matching is commented out in the
source). -/
def collectCandidates (doc : J) : List RegisterSchema → Except String (List (Variant × Nat))
  | [] => .ok []
  | rs :: rest =>
    match collectVariants doc rs.variants with
    | .error e => .error e
    | .ok here =>
      match collectCandidates doc rest with
      | .error e => .error e
      | .ok more => .ok (here ++ more)

/-- The top score among the candidates (the score of the head of the
descending stable sort in the source; taking the fold maximum over the
unsorted list is the same number). -/
def maxScore (cands : List (Variant × Nat)) : Nat :=
  cands.foldl (fun m c => max m c.2) 0

/-- Embedding of `resolve_variant_impl` (service.py lines 6-53).  The
second component is the `debug["ambiguity"]` field: `none` when absent,
the tied variant ids when two or more candidates share the top score.
The source sorts the candidates by score descending (a stable sort) and
filters the top-score slice; filtering the unsorted list by the maximum
score yields the same slice in the same (original) order. -/
def resolveVariantImpl (doc : J) (regs : List RegisterSchema) :
    Except String (Option Variant × Option (List String)) :=
  match collectCandidates doc regs with
  | .error e => .error e
  | .ok cands =>
    match cands with
    | [] => .ok (none, none)
    | _ :: _ =>
      let best := cands.filter (fun c => c.2 == maxScore cands)
      match best with
      | [b] => .ok (some b.1, none)
      | bs => .ok (none, some (bs.map (fun b => b.1.variant_id)))

/-- One node row of the JSON graph sink
(`{"label": n.label, "id": n.node_id, "properties": n.properties}`);
`node_id or ""` collapses a missing id to the empty string when the
pipeline builds the `NodeRecord`. -/
structure NodeRow where
  label : String
  id : String
  properties : List (String × J)

/-- One relationship row of the JSON graph sink. -/
structure RelRow where
  relType : String
  fromLabel : String
  fromId : Option String
  toLabel : String
  toId : Option String
  properties : List (String × J)

/-- The in-memory graph state of `JsonGraphSink` (its `nodes` and `rels`
snapshot lists; the appended jsonl files hold the same rows). -/
structure GraphState where
  nodes : List NodeRow := []
  rels : List RelRow := []

/-- Embedding of `JsonGraphSink.upsert_nodes` (json_store.py lines
65-72): every record is appended — there is no match on the id — and the
count of appended rows is returned. -/
def upsertNodes (st : GraphState) (ns : List NodeRow) : GraphState × Nat :=
  ({ st with nodes := st.nodes ++ ns }, ns.length)

/-- Embedding of `JsonGraphSink.upsert_relationships` (json_store.py
lines 74-86): append-only, like the node path. -/
def upsertRelationships (st : GraphState) (rs : List RelRow) : GraphState × Nat :=
  ({ st with rels := st.rels ++ rs }, rs.length)

/-- The `NodeRecord`-to-sink-row composition of `ingest_file`:
`node_id=e.node_id or ""` and the instance's properties. -/
def toNodeRow (e : EntityInstance) : NodeRow :=
  { label := e.label, id := e.node_id.getD "", properties := e.properties }

/-- The sink row built from a `RelRecord`. -/
def toRelRow (r : RelRecord) : RelRow :=
  { relType := r.rel_type, fromLabel := r.from_label, fromId := r.from_id,
    toLabel := r.to_label, toId := r.to_id, properties := r.properties }

/-- Outcome of one document's post-canonicalization processing: the
quarantine record (category, message, `debug["ambiguity"]`), success, or
a propagated exception. -/
inductive IngestOutcome where
  | quarantined (category : String) (message : String) (ambiguity : Option (List String))
  | ok (docId : String)
  | raised (e : String)

/-- Embedding of the post-canonicalization slice of
`IngestionPipeline.ingest_file` (pipeline.py lines 146-209): resolve the
variant — any `None` result, tie or miss alike, quarantines with
category `"schema_not_found"` and message `"No matching schema variant
found"` — then map, then append nodes and relationships to the graph
sink.  Document-store writes, logs and run metrics are elided; the graph
state is the observable this embedding tracks.  Nothing here reads the
document store: no raw-hash idempotence check precedes processing. -/
def ingestCanonical (regs : List RegisterSchema)
    (entitySchemas : List (String × EntitySchema))
    (relSchemas : List RelationshipSchema)
    (docId : String) (doc : J) (st : GraphState) : IngestOutcome × GraphState :=
  match resolveVariantImpl doc regs with
  | .error e => (.raised e, st)
  | .ok (none, amb) =>
    (.quarantined "schema_not_found" "No matching schema variant found" amb, st)
  | .ok (some v, _) =>
    match mapEntities entitySchemas docId doc v with
    | .error e => (.raised e, st)
    | .ok entities =>
      let (st1, _) := upsertNodes st (entities.map toNodeRow)
      let rels := buildRelationships relSchemas docId entities
      let (st2, _) :=
        if rels.isEmpty then (st1, 0) else upsertRelationships st1 (rels.map toRelRow)
      (.ok docId, st2)

/-- Opening brace character (written via its code point). -/
def lbrace : Char := Char.ofNat 123

/-- Closing brace character (written via its code point). -/
def rbrace : Char := Char.ofNat 125

/-- JSON escape of one character, as `json.dumps` renders it (with
`ensure_ascii=False`: non-ASCII characters pass through). -/
def jsonEscapeChar (c : Char) : List Char :=
  if c == '"' then ['\\', '"']
  else if c == '\\' then ['\\', '\\']
  else if c == '\n' then ['\\', 'n']
  else if c == '\t' then ['\\', 't']
  else if c == '\r' then ['\\', 'r']
  else if c.toNat == 8 then ['\\', 'b']
  else if c.toNat == 12 then ['\\', 'f']
  else if c.toNat < 32 then ['\\', 'u', '0', '0', hexChar (c.toNat / 16), hexChar (c.toNat % 16)]
  else [c]

/-- JSON string-body escaping. -/
def jsonEscape (s : String) : String := ⟨(s.data.map jsonEscapeChar).flatten⟩

/-- Code-point lexicographic comparison on character lists, the order
Python `<` and `sorted` use on strings. -/
def strLtB : List Char → List Char → Bool
  | [], [] => false
  | [], _ :: _ => true
  | _ :: _, [] => false
  | a :: as, b :: bs =>
    if a.toNat < b.toNat then true
    else if b.toNat < a.toNat then false
    else strLtB as bs

/-- String comparison in Python's `sorted` order. -/
def pyStrLt (a b : String) : Bool := strLtB a.data b.data

/-- Ordered insertion by key (ascending code-point order, as Python
`sorted` compares strings). -/
def insertByKey (kv : String × J) : List (String × J) → List (String × J)
  | [] => [kv]
  | x :: xs => if pyStrLt kv.1 x.1 then kv :: x :: xs else x :: insertByKey kv xs

/-- Insertion sort of a field list by key, the order `sort_keys=True`
serializes in. -/
def sortByKey : List (String × J) → List (String × J)
  | [] => []
  | x :: xs => insertByKey x (sortByKey xs)

mutual

/-- Recursively sorts every object's fields by key (the tree
`json.dumps(..., sort_keys=True)` effectively serializes). -/
def sortJ : J → J
  | .obj fs => .obj (sortByKey (sortJMap fs))
  | .arr xs => .arr (sortJList xs)
  | s => s

/-- Key-sorting applied below each list element. -/
def sortJList : List J → List J
  | [] => []
  | x :: xs => sortJ x :: sortJList xs

/-- Key-sorting applied below each field value. -/
def sortJMap : List (String × J) → List (String × J)
  | [] => []
  | (k, v) :: xs => (k, sortJ v) :: sortJMap xs

end

mutual

/-- Serialization core of `json.dumps` with its default separators
`", "` and `": "`, on a tree whose objects are already key-sorted. -/
def dumpsCore : J → String
  | .null => "null"
  | .bool true => "true"
  | .bool false => "false"
  | .int n => toString n
  | .str s => "\"" ++ jsonEscape s ++ "\""
  | .arr xs => "[" ++ ", ".intercalate (dumpsList xs) ++ "]"
  | .obj fs => "\x7b" ++ ", ".intercalate (dumpsMap fs) ++ "\x7d"

/-- Serializes each element of a list. -/
def dumpsList : List J → List String
  | [] => []
  | x :: xs => dumpsCore x :: dumpsList xs

/-- Serializes each field of an object. -/
def dumpsMap : List (String × J) → List String
  | [] => []
  | (k, v) :: xs => ("\"" ++ jsonEscape k ++ "\": " ++ dumpsCore v) :: dumpsMap xs

end

/-- Embedding of `json.dumps(x, ensure_ascii=False, sort_keys=True)`. -/
def pyJsonDumps (x : J) : String := dumpsCore (sortJ x)

/-- Fuelled scan of `re.sub(r',(\s*[\]}])', r'\1', raw_str)`: a comma
followed by optional whitespace and a closing bracket or brace is
dropped; scanning resumes after the bracket, as `re.sub` resumes after
each match.  The fuel is at least the input length, so it never runs
out. -/
def stripTCF : Nat → List Char → List Char
  | 0, cs => cs
  | _ + 1, [] => []
  | fuel + 1, c :: rest =>
    if c == ',' then
      let ws := rest.takeWhile isWs
      match rest.dropWhile isWs with
      | b :: rest' =>
        if b == ']' || b == rbrace then ws ++ [b] ++ stripTCF fuel rest'
        else c :: stripTCF fuel rest
      | [] => c :: stripTCF fuel rest
    else c :: stripTCF fuel rest

/-- Embedding of the trailing-comma cleanup of `JsonAdapter.process`. -/
def stripTrailingCommas (s : String) : String := ⟨stripTCF (s.data.length + 1) s.data⟩

/-- JSON whitespace (the characters `json.loads` skips between
tokens). -/
def jsonWsChar (c : Char) : Bool :=
  c == ' ' || c == '\t' || c == '\n' || c == '\r'

/-- Skips JSON whitespace. -/
def skipJWs (cs : List Char) : List Char := cs.dropWhile jsonWsChar

/-- Hex digit value. -/
def hexVal (c : Char) : Option Nat :=
  if c.isDigit then some (c.toNat - 48)
  else if 97 ≤ c.toNat ∧ c.toNat ≤ 102 then some (c.toNat - 87)
  else if 65 ≤ c.toNat ∧ c.toNat ≤ 70 then some (c.toNat - 55)
  else none

/-- Numeric value of a digit list. -/
def natFromDigits (ds : List Char) : Nat :=
  ds.foldl (fun acc c => acc * 10 + (c.toNat - 48)) 0

/-- Parses a JSON number.  Integer literals only: a fraction or exponent
makes the parse fail in this model (the adapter's documents in the
checked scenarios carry strings and integers). -/
def parseJNum (cs : List Char) : Option (J × List Char) :=
  let (neg, cs') :=
    match cs with
    | c :: rest => if c == '-' then (true, rest) else (false, cs)
    | [] => (false, ([] : List Char))
  let ds := cs'.takeWhile Char.isDigit
  let rest := cs'.dropWhile Char.isDigit
  if ds.isEmpty then none
  else if ds.length > 1 && ds.headD '0' == '0' then none
  else
    let n : Int := natFromDigits ds
    let v := J.int (if neg then -n else n)
    match rest with
    | r :: _ =>
      if r == '.' || r == 'e' || r == 'E' then none else some (v, rest)
    | [] => some (v, rest)

/-- Python-dict construction from parsed members: first occurrence keeps
its position, a repeated key takes the last value (as `json.loads`
builds its dict). -/
def dictify (pairs : List (String × J)) : List (String × J) :=
  pairs.foldl (fun acc kv => setKey acc kv.1 kv.2) []

mutual

/-- Fuelled recursive-descent parser for one JSON value, the embedding
of `json.loads` (strict mode: unescaped control characters in strings
are rejected). -/
def parseJVal : Nat → List Char → Option (J × List Char)
  | 0, _ => none
  | fuel + 1, cs =>
    match skipJWs cs with
    | [] => none
    | c :: rest =>
      if c == 'n' then
        (match rest with
         | 'u' :: 'l' :: 'l' :: r => some (J.null, r)
         | _ => none)
      else if c == 't' then
        (match rest with
         | 'r' :: 'u' :: 'e' :: r => some (J.bool true, r)
         | _ => none)
      else if c == 'f' then
        (match rest with
         | 'a' :: 'l' :: 's' :: 'e' :: r => some (J.bool false, r)
         | _ => none)
      else if c == '"' then
        (match parseJStr fuel rest with
         | some (s, r) => some (J.str s, r)
         | none => none)
      else if c == '[' then
        (match skipJWs rest with
         | c2 :: r2 =>
           if c2 == ']' then some (J.arr [], r2)
           else
             (match parseJElems fuel rest with
              | some (xs, r) => some (J.arr xs, r)
              | none => none)
         | [] => none)
      else if c == lbrace then
        (match skipJWs rest with
         | c2 :: r2 =>
           if c2 == rbrace then some (J.obj [], r2)
           else
             (match parseJMems fuel rest with
              | some (ps, r) => some (J.obj (dictify ps), r)
              | none => none)
         | [] => none)
      else parseJNum (c :: rest)

/-- Parses the body of a JSON string after the opening quote. -/
def parseJStr : Nat → List Char → Option (String × List Char)
  | 0, _ => none
  | fuel + 1, cs =>
    match cs with
    | [] => none
    | c :: rest =>
      if c == '"' then some ("", rest)
      else if c == '\\' then
        (match rest with
         | [] => none
         | e :: r2 =>
           let esc : Option (Char × List Char) :=
             if e == '"' then some ('"', r2)
             else if e == '\\' then some ('\\', r2)
             else if e == '/' then some ('/', r2)
             else if e == 'n' then some ('\n', r2)
             else if e == 't' then some ('\t', r2)
             else if e == 'r' then some ('\r', r2)
             else if e == 'b' then some (Char.ofNat 8, r2)
             else if e == 'f' then some (Char.ofNat 12, r2)
             else if e == 'u' then
               (match r2 with
                | h1 :: h2 :: h3 :: h4 :: r3 =>
                  (match hexVal h1, hexVal h2, hexVal h3, hexVal h4 with
                   | some a, some b, some g, some d =>
                     some (Char.ofNat (a * 4096 + b * 256 + g * 16 + d), r3)
                   | _, _, _, _ => none)
                | _ => none)
             else none
           match esc with
           | none => none
           | some (ch, r3) =>
             (match parseJStr fuel r3 with
              | some (s, r4) => some (⟨ch :: s.data⟩, r4)
              | none => none))
      else if c.toNat < 32 then none
      else
        (match parseJStr fuel rest with
         | some (s, r4) => some (⟨c :: s.data⟩, r4)
         | none => none)

/-- Parses the elements of a JSON array after the opening bracket. -/
def parseJElems : Nat → List Char → Option (List J × List Char)
  | 0, _ => none
  | fuel + 1, cs =>
    match parseJVal fuel cs with
    | none => none
    | some (v, rest) =>
      match skipJWs rest with
      | [] => none
      | c :: r2 =>
        if c == ',' then
          (match parseJElems fuel r2 with
           | some (vs, r3) => some (v :: vs, r3)
           | none => none)
        else if c == ']' then some ([v], r2)
        else none

/-- Parses the members of a JSON object after the opening brace. -/
def parseJMems : Nat → List Char → Option (List (String × J) × List Char)
  | 0, _ => none
  | fuel + 1, cs =>
    match skipJWs cs with
    | [] => none
    | c :: rest =>
      if c == '"' then
        (match parseJStr fuel rest with
         | none => none
         | some (k, r2) =>
           match skipJWs r2 with
           | [] => none
           | c2 :: r3 =>
             if c2 == ':' then
               (match parseJVal fuel r3 with
                | none => none
                | some (v, r4) =>
                  match skipJWs r4 with
                  | [] => none
                  | c3 :: r5 =>
                    if c3 == ',' then
                      (match parseJMems fuel r5 with
                       | some (ps, r6) => some ((k, v) :: ps, r6)
                       | none => none)
                    else if c3 == rbrace then some ([(k, v)], r5)
                    else none)
             else none)
      else none

end

/-- Embedding of `json.loads`: parse one value and require only
whitespace after it. -/
def pyJsonLoads (s : String) : Option J :=
  match parseJVal (2 * s.data.length + 8) s.data with
  | some (v, rest) => if (skipJWs rest).isEmpty then some v else none
  | none => none

/-- Embedding of `heuristic_meta_from_json` (adapter_json.py lines
12-21): an `EIS`/`PERSON` classification when `root.result` carries one
of the person-like keys. -/
def heuristicMeta (obj : J) : List (String × J) :=
  match obj with
  | J.obj fs =>
    (match jLookup fs "root" with
     | some (J.obj r) =>
       (match jLookup r "result" with
        | some (J.obj res) =>
          if ["rnokpp", "unzr", "first_name", "last_name", "date_birth"].any
              (fun k => (jLookup res k).isSome) then
            [("registry_code", J.str "EIS"), ("service_code", J.str "PERSON")]
          else []
        | _ => [])
     | _ => [])
  | _ => []

/-- The `{meta, data}` pair a canonical adapter produces. -/
structure CanonDoc where
  meta : List (String × J)
  data : J

/-- Embedding of the JSON-parse path of `JsonAdapter.process`
(adapter_json.py lines 27-110): decode (the raw text argument stands for
`raw_bytes.decode(encoding, errors="replace")`), strip trailing commas,
parse, and build `meta` from `file_path`, `content_type` and the
heuristic classification.  The query-string / `HEADER_*` log / filter-DTO
fallback branches taken when the JSON parse fails are elided: the model
returns `none` there, and the theorems about it restrict to documents
whose JSON parse succeeds. -/
def jsonAdapterProcess (filePath contentType rawText : String) : Option CanonDoc :=
  let cleaned := stripTrailingCommas rawText
  match pyJsonLoads cleaned with
  | none => none
  | some obj =>
    let base := [("file_path", J.str filePath), ("content_type", J.str contentType)]
    let meta := (heuristicMeta obj).foldl (fun m kv => setKey m kv.1 kv.2) base
    some { meta := meta, data := obj }

/-- The canonical serialization
`json.dumps({"meta": meta, "data": data}, ensure_ascii=False, sort_keys=True)`. -/
def canonSerialization (cd : CanonDoc) : String :=
  pyJsonDumps (J.obj [("meta", J.obj cd.meta), ("data", cd.data)])

/-- The canonical hash: SHA-256 of the UTF-8 bytes of the canonical
serialization. -/
def canonHash (cd : CanonDoc) : String := sha256String (canonSerialization cd)

set_option maxRecDepth 200000

/-- Any non-root token steps successfully. -/
theorem jpStep_ok (t : Tok) (h : t ≠ Tok.root) (cur : List J) :
    ∃ vs, jpStep t cur = .ok vs := by
  cases t with
  | root => exact absurd rfl h
  | key n => exact ⟨_, rfl⟩
  | idx n => exact ⟨_, rfl⟩
  | wild => exact ⟨_, rfl⟩

/-- The token loop succeeds on any token list free of root tokens. -/
theorem jpLoop_ok (ts : List Tok) (h : Tok.root ∉ ts) :
    ∀ cur, ∃ vs, jpLoop ts cur = .ok vs := by
  induction ts with
  | nil => exact fun cur => ⟨cur, rfl⟩
  | cons t ts ih =>
    intro cur
    have ht : t ≠ Tok.root := fun e => h (e ▸ List.mem_cons_self t ts)
    obtain ⟨nxt, hs⟩ := jpStep_ok t ht cur
    by_cases he : nxt.isEmpty = true
    · exact ⟨[], by simp [jpLoop, hs, he]⟩
    · obtain ⟨vs, hl⟩ := ih (fun m => h (List.mem_cons_of_mem _ m)) nxt
      exact ⟨vs, by simp [jpLoop, hs, he, hl]⟩

/-- `jp_values` succeeds whenever root tokens are absent from the tail
(the leading one, if any, is stripped before the loop). -/
theorem jpValues_ok (obj : J) (ts : List Tok) (h : Tok.root ∉ ts) :
    (∃ vs, jpValues obj ts = .ok vs) ∧ (∃ vs, jpValues obj (Tok.root :: ts) = .ok vs) := by
  constructor
  · obtain ⟨vs, hl⟩ := jpLoop_ok ts h [obj]
    refine ⟨vs.filter (fun x => !(x == J.null)), ?_⟩
    cases ts with
    | nil => simp [jpValues] at hl ⊢; simp [hl]
    | cons t ts' =>
      cases t with
      | root => exact absurd (List.mem_cons_self _ _) h
      | key n => simp [jpValues] at hl ⊢; simp [hl]
      | idx n => simp [jpValues] at hl ⊢; simp [hl]
      | wild => simp [jpValues] at hl ⊢; simp [hl]
  · obtain ⟨vs, hl⟩ := jpLoop_ok ts h [obj]
    exact ⟨vs.filter (fun x => !(x == J.null)), by simp [jpValues, hl]⟩

/-- Claim C9.  The claim reads: for every canonical tree and every
non-empty path built from the supported tokens (`$`, `.name`, `[n]`,
`[*]`), `jp_values` returns a sequence and never raises.  It fails: the
root token `$` is only stripped in leading position, and a path such as
`$.a.$` — built entirely from supported tokens — reaches the `else:
raise ValueError("unsupported token: ...")` branch of the loop, because
the first step leaves a non-empty value list for the interior root token
to process. -/
theorem claim_C9_counterexample :
    jpValues (J.obj [("a", J.str "b")]) [Tok.key "a", Tok.root] =
      .error "unsupported token: root" := rfl

/-- Claim C9, amended: for every canonical tree and every path whose
`$` token appears only in leading position, `jp_values` returns a
(possibly empty) sequence and never raises; a missing key yields the
empty sequence, indexing a mapping yields the empty sequence, naming a
member of a scalar yields the empty sequence, and `[*]` applied to a
non-sequence, non-null value yields the one-element sequence containing
that value. -/
theorem claim_C9_amended (obj : J) (ts : List Tok) (fs : List (String × J))
    (k : String) (n : Nat) (s : String)
    (hts : Tok.root ∉ ts) :
    ((∃ vs, jpValues obj ts = .ok vs) ∧ (∃ vs, jpValues obj (Tok.root :: ts) = .ok vs)) ∧
    (jLookup fs k = none → jpValues (J.obj fs) [Tok.key k] = .ok []) ∧
    jpValues (J.obj fs) [Tok.idx n] = .ok [] ∧
    jpValues (J.str s) [Tok.key k] = .ok [] ∧
    ((obj == J.null) = false → (∀ xs, obj ≠ J.arr xs) →
       jpValues obj [Tok.wild] = .ok [obj]) := by
  refine ⟨jpValues_ok obj ts hts, ?_, ?_, ?_, ?_⟩
  · intro h
    simp [jpValues, jpLoop, jpStep, h]
  · simp [jpValues, jpLoop, jpStep]
  · simp [jpValues, jpLoop, jpStep]
  · intro hnull harr
    cases obj with
    | null => exact absurd hnull (by decide)
    | arr xs => exact absurd rfl (harr xs)
    | bool b => simp [jpValues, jpLoop, jpStep, List.flatMap]; rfl
    | int m => simp [jpValues, jpLoop, jpStep, List.flatMap]; rfl
    | str t => simp [jpValues, jpLoop, jpStep, List.flatMap]; rfl
    | obj gs => simp [jpValues, jpLoop, jpStep, List.flatMap]; rfl

/-- Claim C9 witness: the amended statement evaluated at concrete
inputs. -/
theorem claim_C9_witness :
    jpValues (J.obj [("a", J.str "b")]) [Tok.key "z"] = .ok [] ∧
    jpValues (J.obj [("a", J.str "b")]) [Tok.idx 0] = .ok [] ∧
    jpValues (J.str "w") [Tok.key "z"] = .ok [] ∧
    jpValues (J.int 7) [Tok.wild] = .ok [J.int 7] :=
  have h := claim_C9_amended (J.int 7) [Tok.key "x"] [("a", J.str "b")] "z" 0 "w" (by decide)
  ⟨h.2.1 rfl, h.2.2.1, h.2.2.2.1, h.2.2.2.2 rfl (fun xs hx => J.noConfusion hx)⟩

/-- A two-mapping variant in which both mappings share the default scope
key (`mapping_id` absent on both, no `foreach`) and target the same
property `p` of the same entity reference, the first from `$.a`, the
second from `$.b`.  Its empty match predicate makes it match any
document with score 0. -/
def vTwoWrites : Variant :=
  { variant_id := "v1", match_predicate := {},
    mappings :=
      [ { json_path := some [Tok.root, Tok.key "a"],
          targets := [{ entity := "Person", property := "p" }] },
        { json_path := some [Tok.root, Tok.key "b"],
          targets := [{ entity := "Person", property := "p" }] } ] }

/-- A document giving the first mapping the value `"A"` and the second
the value `"B"` for the shared property. -/
def docAB : J := J.obj [("a", J.str "A"), ("b", J.str "B")]

/-- Late writes land: after `properties[k] = v`, looking up `k` yields
`v`. -/
theorem jLookup_setKey (props : List (String × J)) (k : String) (v : J) :
    jLookup (setKey props k v) k = some v := by
  induction props with
  | nil => simp [setKey, jLookup]
  | cons kv rest ih =>
    obtain ⟨k', v'⟩ := kv
    by_cases h : (k' == k) = true
    · simp [setKey, jLookup, h]
    · simp [setKey, jLookup, h, ih]

/-- Claim C3.  The claim reads: when the same property receives multiple
non-null values within one document, the first written value wins and
later non-null writes do not replace it.  It fails: the assignment
`inst.properties[prop] = val` in `_map_entities` overwrites
unconditionally, so with two scope-sharing mappings writing `p := "A"`
and then `p := "B"`, the surviving value is `"B"`, not the first write
`"A"` (and no merge warning is recorded anywhere). -/
theorem claim_C3_counterexample :
    mapEntities [] "D" docAB vTwoWrites =
      .ok [{ label := "Person", entity_ref := "Person", scope_root := "D:map:0",
             scope_id := "D:map:0:Person",
             properties := [("p", J.str "B"), ("source_doc_id", J.str "D")],
             node_id := some "DOCSCOPED:D:D:map:0:Person" }] ∧
    "B" ≠ "A" :=
  ⟨rfl, by decide⟩

/-- Claim C3, amended: when the same property receives multiple non-null
values within one document (which happens when two mappings share a
scope key), the last written value wins — each later non-null write
replaces the earlier value — and no merge warning is recorded.  Stated
for arbitrary values of the two writes, together with the general
overwrite behavior of the property-assignment step. -/
theorem claim_C3_amended (v1 v2 : String) (props : List (String × J)) (k : String) (w : J) :
    mapEntities [] "D" (J.obj [("a", J.str v1), ("b", J.str v2)]) vTwoWrites =
      .ok [{ label := "Person", entity_ref := "Person", scope_root := "D:map:0",
             scope_id := "D:map:0:Person",
             properties := [("p", J.str v2), ("source_doc_id", J.str "D")],
             node_id := some "DOCSCOPED:D:D:map:0:Person" }] ∧
    jLookup (setKey props k w) k = some w :=
  ⟨rfl, jLookup_setKey props k w⟩

/-- The transform definition `{"type": "regex", "pattern": "x"}`. -/
def tdRegexX : TransformDef := { type := some "regex", pattern := some "x" }

/-- Claim C7.  The claim reads: a transform applied to a value of an
incompatible type (e.g. a non-string given to `regex`, `split` or
`clean`) yields null.  It fails: `apply_transformation` falls through to
its final `return value` when the `isinstance` guard fails, so an
integer passed to a `regex` transform comes back unchanged, not null. -/
theorem claim_C7_counterexample :
    applyTransformation (J.int 5) tdRegexX = J.int 5 ∧
    applyTransformation (J.int 5) tdRegexX ≠ J.null :=
  ⟨rfl, fun h => J.noConfusion h⟩

/-- Values that are not strings. -/
def notStr (v : J) : Prop := ∀ s, v ≠ J.str s

/-- Non-null values test unequal to null under the embedded Python
equality. -/
theorem beq_null_eq_false (v : J) (h : v ≠ J.null) : (v == J.null) = false := by
  cases v with
  | null => exact absurd rfl h
  | bool b => rfl
  | int n => rfl
  | str s => rfl
  | arr xs => rfl
  | obj fs => rfl

/-- Claim C7, amended: transforms never raise, a null input stays null,
and on incompatible input types the value is returned unchanged (not
null): a non-string through `regex`, `split` or `clean` of
`apply_transformation`, and a non-string through the string transforms
of `apply_transforms`, come back identical. -/
theorem claim_C7_amended (v : J) (td : TransformDef) (ts : List String) (t : String) :
    applyTransformation J.null td = J.null ∧
    ((td.type = some "regex" ∨ td.type = some "split" ∨ td.type = some "clean") →
       notStr v → v ≠ J.null → applyTransformation v td = v) ∧
    applyTransforms J.null ts = J.null ∧
    ((t = "trim" ∨ t = "collapse_spaces" ∨ t = "upper" ∨ t = "lower") →
       notStr v → v ≠ J.null → applyTransforms v [t] = v) := by
  refine ⟨rfl, ?_, ?_, ?_⟩
  · intro hty hs hn
    have hb := beq_null_eq_false v hn
    rcases hty with h | h | h <;>
      cases v with
      | str s => exact absurd rfl (hs s)
      | null => exact absurd rfl hn
      | bool b => simp [applyTransformation, h, hb]
      | int n => simp [applyTransformation, h, hb]
      | arr xs => simp [applyTransformation, h, hb]
      | obj fs => simp [applyTransformation, h, hb]
  · cases ts with
    | nil => rfl
    | cons t' ts' => rfl
  · intro hty hs hn
    have hb := beq_null_eq_false v hn
    rcases hty with h | h | h | h <;>
      cases v with
      | str s => exact absurd rfl (hs s)
      | null => exact absurd rfl hn
      | bool b => simp [applyTransforms, h, hb]
      | int n => simp [applyTransforms, h, hb]
      | arr xs => simp [applyTransforms, h, hb]
      | obj fs => simp [applyTransforms, h, hb]

/-- Claim C7 witness: the amended statement evaluated at concrete
inputs — an integer through `regex` and through `trim` is unchanged,
null stays null. -/
theorem claim_C7_witness :
    applyTransformation J.null tdRegexX = J.null ∧
    applyTransformation (J.int 3) tdRegexX = J.int 3 ∧
    applyTransforms J.null ["trim"] = J.null ∧
    applyTransforms (J.int 3) ["trim"] = J.int 3 :=
  have h := claim_C7_amended (J.int 3) tdRegexX ["trim"] "trim"
  ⟨h.1, h.2.1 (Or.inl rfl) (fun _ hx => J.noConfusion hx) (fun hx => J.noConfusion hx),
   h.2.2.1, h.2.2.2 (Or.inl rfl) (fun _ hx => J.noConfusion hx) (fun hx => J.noConfusion hx)⟩

/-- The S1 `Person` entity schema slice: one identity key, satisfied
when `unzr` is present, joining the single property `unzr`. -/
def esPerson : EntitySchema :=
  { entity_name := "Person",
    identity_keys := [{ whenExists := ["unzr"], properties := ["unzr"] }] }

/-- The S1 `Person` instance as the mapper would stage it: `unzr = "U1"`
plus the provenance tag. -/
def instPersonU1 : EntityInstance :=
  { label := "Person", entity_ref := "Person", scope_root := "D:map:0",
    scope_id := "D:map:0:Person",
    properties := [("unzr", J.str "U1"), ("source_doc_id", J.str "D")] }

/-- Claim C1.  The claim reads: when an identity key matches, the
assigned node id is the SHA-256 hex digest of the entity label, `"|"`,
and the identity-key property values joined with `"|"` — for S1,
`sha256("Person|U1")`.  It fails: `_finalize_entity_id` hashes
`"|".join(matched_kv)` alone, with no label prefix, so the S1 `Person`
gets `sha256("U1")`, which differs from `sha256("Person|U1")`. -/
theorem claim_C1_counterexample :
    (finalizeEntityId [("Person", esPerson)] "D" instPersonU1).node_id ≠
      some (sha256String ("Person" ++ "|" ++ "U1")) := by
  decide

/-- Claim C1, amended: for every entity instance whose label has an
entity schema and for which some identity key matches (with a non-empty
property list), the assigned node id is the SHA-256 hex digest of the
identity-key property values joined with `"|"` — the label is not part
of the hashed string, so for S1 the `Person` node id is
`sha256("U1")`. -/
theorem claim_C1_amended (es : List (String × EntitySchema)) (docId : String)
    (inst : EntityInstance) (sch : EntitySchema)
    (h1 : lookupStr es inst.label = some sch)
    (h2 : firstKeyParts sch.identity_keys inst.properties ≠ []) :
    (finalizeEntityId es docId inst).node_id =
      some (sha256String
        (String.intercalate "|" (firstKeyParts sch.identity_keys inst.properties))) := by
  unfold finalizeEntityId
  rw [h1]
  dsimp only
  cases hp : firstKeyParts sch.identity_keys inst.properties with
  | nil => exact absurd hp h2
  | cons a l => rfl

/-- Claim C1 witness: the amended statement at the S1 instance — the
node id is the hex digest of SHA-256 over the bytes of `"U1"`. -/
theorem claim_C1_witness :
    (finalizeEntityId [("Person", esPerson)] "D" instPersonU1).node_id =
      some "316ca0efda6296d8f2c11d1e20890d220cec4266a0c16fbbef324c004688468a" :=
  (claim_C1_amended [("Person", esPerson)] "D" instPersonU1 esPerson rfl
    (by decide)).trans (by rfl)

/-- `_finalize_entity_id` leaves the label, scope id and properties of
the instance untouched. -/
theorem finalize_preserves (es : List (String × EntitySchema)) (d : String) (i : EntityInstance) :
    (finalizeEntityId es d i).label = i.label ∧
    (finalizeEntityId es d i).scope_id = i.scope_id ∧
    (finalizeEntityId es d i).properties = i.properties := by
  unfold finalizeEntityId
  split
  · exact ⟨rfl, rfl, rfl⟩
  · split
    · exact ⟨rfl, rfl, rfl⟩
    · exact ⟨rfl, rfl, rfl⟩

/-- `_finalize_entity_id` always assigns a node id. -/
theorem finalize_isSome (es : List (String × EntitySchema)) (d : String) (i : EntityInstance) :
    (finalizeEntityId es d i).node_id.isSome = true := by
  unfold finalizeEntityId
  split
  · rfl
  · split
    · rfl
    · rfl

/-- With no entity schema for the label, the node id is the doc-scoped
fallback. -/
theorem finalize_noSchema (es : List (String × EntitySchema)) (d : String) (i : EntityInstance)
    (h : lookupStr es i.label = none) :
    (finalizeEntityId es d i).node_id = some ("DOCSCOPED:" ++ d ++ ":" ++ i.scope_id) := by
  unfold finalizeEntityId
  rw [h]

/-- With a schema but no matching identity key, the node id is the
doc-scoped fallback. -/
theorem finalize_noKey (es : List (String × EntitySchema)) (d : String) (i : EntityInstance)
    (sch : EntitySchema) (h : lookupStr es i.label = some sch)
    (hp : firstKeyParts sch.identity_keys i.properties = []) :
    (finalizeEntityId es d i).node_id = some ("DOCSCOPED:" ++ d ++ ":" ++ i.scope_id) := by
  unfold finalizeEntityId
  rw [h]
  dsimp only
  rw [hp]
  rfl

/-- Claim C10: after mapping completes, every entity instance emitted
for a document carries a non-null node id; when the label has no entity
schema, or no identity key matches, the id is the doc-scoped fallback
`"DOCSCOPED:{document_id}:{instance_key}"`; and every relationship
record built from these instances carries non-null endpoint ids. -/
theorem claim_C10 (es : List (String × EntitySchema)) (relSchemas : List RelationshipSchema)
    (docId : String) (doc : J) (v : Variant) (entities : List EntityInstance)
    (h : mapEntities es docId doc v = .ok entities) :
    (∀ e ∈ entities, e.node_id.isSome = true ∧
       (lookupStr es e.label = none →
          e.node_id = some ("DOCSCOPED:" ++ docId ++ ":" ++ e.scope_id)) ∧
       (∀ sch, lookupStr es e.label = some sch →
          firstKeyParts sch.identity_keys e.properties = [] →
          e.node_id = some ("DOCSCOPED:" ++ docId ++ ":" ++ e.scope_id))) ∧
    (∀ r ∈ buildRelationships relSchemas docId entities,
       r.from_id.isSome = true ∧ r.to_id.isSome = true) := by
  have hent : ∀ e ∈ entities, ∃ i, e = finalizeEntityId es docId i := by
    unfold mapEntities at h
    cases hm : mapMappings docId doc v.mappings [] with
    | error err => rw [hm] at h; exact absurd h (by simp)
    | ok insts =>
      rw [hm] at h
      have hl : insts.map (finalizeEntityId es docId) = entities := by
        injection h
      intro e he
      rw [← hl] at he
      obtain ⟨i, _, hei⟩ := List.mem_map.mp he
      exact ⟨i, hei.symm⟩
  have hsome : ∀ e ∈ entities, e.node_id.isSome = true := by
    intro e he
    obtain ⟨i, rfl⟩ := hent e he
    exact finalize_isSome es docId i
  constructor
  · intro e he
    obtain ⟨i, rfl⟩ := hent e he
    obtain ⟨hlb, hsc, hpr⟩ := finalize_preserves es docId i
    refine ⟨finalize_isSome es docId i, ?_, ?_⟩
    · intro hnone
      rw [hlb] at hnone
      rw [hsc]
      exact finalize_noSchema es docId i hnone
    · intro sch hsch hparts
      rw [hlb] at hsch
      rw [hpr] at hparts
      rw [hsc]
      exact finalize_noKey es docId i sch hsch hparts
  · intro r hr
    simp only [buildRelationships, List.mem_flatMap, List.mem_map] at hr
    obtain ⟨rs, _, rule, _, sr, _, fn, hfn, tn, htn, hrec⟩ := hr
    have hfe : fn ∈ entities := (List.mem_filter.mp (List.mem_filter.mp hfn).1).1
    have hte : tn ∈ entities := (List.mem_filter.mp (List.mem_filter.mp htn).1).1
    have h1 := hsome fn hfe
    have h2 := hsome tn hte
    rw [← hrec]
    exact ⟨h1, h2⟩

/-- A relationship schema whose single rule joins the `Person` entity
reference to itself. -/
def relSelf : RelationshipSchema :=
  { relationship_name := "SELF", relType := "SELF",
    creation_rules := [{ fromRef := "Person", toRef := "Person" }] }

/-- The single instance `mapEntities` emits for `docAB` under
`vTwoWrites` with an empty entity-schema registry. -/
def entB : EntityInstance :=
  { label := "Person", entity_ref := "Person", scope_root := "D:map:0",
    scope_id := "D:map:0:Person",
    properties := [("p", J.str "B"), ("source_doc_id", J.str "D")],
    node_id := some "DOCSCOPED:D:D:map:0:Person" }

/-- The single relationship record built from `entB` under `relSelf`. -/
def relBSelf : RelRecord :=
  { rel_type := "SELF", from_label := "Person", from_id := some "DOCSCOPED:D:D:map:0:Person",
    to_label := "Person", to_id := some "DOCSCOPED:D:D:map:0:Person",
    properties := [("source_doc", J.str "D")], source_doc := "D",
    scope_root := "D:map:0", name := "SELF" }

/-- Claim C10 witness: the statement evaluated on a concrete document
whose entity lacks any schema — the doc-scoped id is assigned and the
self-relationship carries it on both endpoints. -/
theorem claim_C10_witness :
    entB.node_id.isSome = true ∧
    relBSelf.from_id.isSome = true ∧ relBSelf.to_id.isSome = true :=
  have h := claim_C10 [] [relSelf] "D" docAB vTwoWrites [entB] rfl
  have hm : relBSelf ∈ buildRelationships [relSelf] "D" [entB] := by
    have he : buildRelationships [relSelf] "D" [entB] = [relBSelf] := rfl
    rw [he]
    exact List.mem_singleton.mpr rfl
  ⟨(h.1 entB (List.mem_singleton.mpr rfl)).1, (h.2 relBSelf hm).1, (h.2 relBSelf hm).2⟩

/-- On a top-score tie (two or more candidates share the maximum score),
`resolve_variant_impl` returns no variant and lists the tied variant ids
in the ambiguity diagnostic. -/
theorem resolve_tie (doc : J) (regs : List RegisterSchema) (cands : List (Variant × Nat))
    (hc : collectCandidates doc regs = .ok cands)
    (h2 : 2 ≤ (cands.filter (fun c => c.2 == maxScore cands)).length) :
    resolveVariantImpl doc regs =
      .ok (none, some ((cands.filter (fun c => c.2 == maxScore cands)).map
        (fun c => c.1.variant_id))) := by
  unfold resolveVariantImpl
  rw [hc]
  cases cands with
  | nil => simp at h2
  | cons c cs =>
    dsimp only
    cases hf : (c :: cs).filter (fun x => x.2 == maxScore (c :: cs)) with
    | nil => rw [hf] at h2
    | cons b bs =>
      cases bs with
      | nil => rw [hf] at h2; simp at h2
      | cons b2 bs2 => rfl

/-- Claim C4: for any fixed registry and canonical document,
`resolve_variant` is deterministic across repeated calls; with no
candidates the outcome is no-match (no variant, no ambiguity list); with
two or more candidates tied at the top score the outcome is ambiguous,
reporting exactly the tied variant ids, never an arbitrary pick; and
with a unique top-scoring candidate that variant is returned. -/
theorem claim_C4 (doc : J) (regs : List RegisterSchema) (cands : List (Variant × Nat))
    (b : Variant × Nat) (hc : collectCandidates doc regs = .ok cands) :
    (resolveVariantImpl doc regs = resolveVariantImpl doc regs) ∧
    (cands = [] → resolveVariantImpl doc regs = .ok (none, none)) ∧
    (2 ≤ (cands.filter (fun c => c.2 == maxScore cands)).length →
       resolveVariantImpl doc regs =
         .ok (none, some ((cands.filter (fun c => c.2 == maxScore cands)).map
           (fun c => c.1.variant_id)))) ∧
    (cands.filter (fun c => c.2 == maxScore cands) = [b] →
       resolveVariantImpl doc regs = .ok (some b.1, none)) := by
  refine ⟨rfl, ?_, fun h2 => resolve_tie doc regs cands hc h2, ?_⟩
  · intro he
    subst he
    unfold resolveVariantImpl
    rw [hc]
  · intro hf
    unfold resolveVariantImpl
    rw [hc]
    cases cands with
    | nil => simp at hf
    | cons c cs =>
      dsimp only
      rw [hf]

/-- A variant that matches any document exposing `$.a`, with id `va`. -/
def vTieA : Variant :=
  { variant_id := "va",
    match_predicate := { all := [{ type := some "json_exists", path := some [Tok.root, Tok.key "a"] }] } }

/-- A second variant with the same predicate, id `vb`. -/
def vTieB : Variant :=
  { variant_id := "vb",
    match_predicate := { all := [{ type := some "json_exists", path := some [Tok.root, Tok.key "a"] }] } }

/-- Two register schemas whose variants tie at score 1 on any document
exposing `$.a`. -/
def regsTie : List RegisterSchema :=
  [ { registry_code := "R1", variants := [vTieA] },
    { registry_code := "R2", variants := [vTieB] } ]

/-- A registry with a single matching variant. -/
def regsOne : List RegisterSchema :=
  [ { registry_code := "R1", variants := [vTieA] } ]

/-- A document exposing `$.a`. -/
def docA1 : J := J.obj [("a", J.int 1)]

/-- Claim C4 witness: the three outcomes evaluated on concrete
registries — empty registry, a two-way tie, and a unique winner. -/
theorem claim_C4_witness :
    resolveVariantImpl docA1 [] = .ok (none, none) ∧
    resolveVariantImpl docA1 regsTie = .ok (none, some ["va", "vb"]) ∧
    resolveVariantImpl docA1 regsOne = .ok (some vTieA, none) :=
  have h0 := claim_C4 docA1 [] [] (vTieA, 1) rfl
  have h1 := claim_C4 docA1 regsTie [(vTieA, 1), (vTieB, 1)] (vTieA, 1) rfl
  have h2 := claim_C4 docA1 regsOne [(vTieA, 1)] (vTieA, 1) rfl
  ⟨h0.2.1 rfl, (h1.2.2.1 (by decide)).trans (by rfl), h2.2.2.2 rfl⟩

/-- Claim C5.  The claim reads: on a top-score tie the orchestrator
quarantines the document with failure category `variant_ambiguous`, not
`schema_not_found`.  It fails: `ingest_file` only checks `if not
variant:` and quarantines every `None` resolution — tie and miss alike —
under the single category `schema_not_found` with message `"No matching
schema variant found"`; the `variant_ambiguous` member of the
`FailureCategory` model is never used. -/
theorem claim_C5_counterexample :
    (ingestCanonical regsTie [] [] "D" docA1 {}).1 =
      .quarantined "schema_not_found" "No matching schema variant found" (some ["va", "vb"]) ∧
    "schema_not_found" ≠ "variant_ambiguous" :=
  ⟨rfl, by decide⟩

/-- Claim C5, amended: on a top-score tie the orchestrator quarantines
the document under the category `schema_not_found` (message `"No
matching schema variant found"`), and the tied variant ids still reach
the quarantine record — only inside the debug details (the resolver's
`ambiguity` field), not as the failure category. -/
theorem claim_C5_amended (regs : List RegisterSchema) (es : List (String × EntitySchema))
    (rels : List RelationshipSchema) (docId : String) (doc : J) (st : GraphState)
    (cands : List (Variant × Nat))
    (hc : collectCandidates doc regs = .ok cands)
    (h2 : 2 ≤ (cands.filter (fun c => c.2 == maxScore cands)).length) :
    (ingestCanonical regs es rels docId doc st).1 =
      .quarantined "schema_not_found" "No matching schema variant found"
        (some ((cands.filter (fun c => c.2 == maxScore cands)).map
          (fun c => c.1.variant_id))) := by
  have hr := resolve_tie doc regs cands hc h2
  unfold ingestCanonical
  rw [hr]

/-- Claim C5 witness: the amended statement on the concrete tied
registry. -/
theorem claim_C5_witness :
    (ingestCanonical regsTie [] [] "D" docA1 {}).1 =
      .quarantined "schema_not_found" "No matching schema variant found" (some ["va", "vb"]) :=
  (claim_C5_amended regsTie [] [] "D" docA1 {} [(vTieA, 1), (vTieB, 1)] rfl (by decide)).trans
    (by rfl)

/-- A registry whose single register schema carries the always-matching
two-write variant. -/
def regsOneMap : List RegisterSchema :=
  [ { registry_code := "R1", variants := [vTwoWrites] } ]

/-- Claim C2.  The claim reads: ingesting the same raw document twice
yields identical graph state, because the orchestrator consults the
document store and skips any document whose raw-hash already exists in
state `processed`.  It fails on both halves: `ingest_file` never reads
the document store before processing, and `JsonGraphSink.upsert_nodes`
appends rows without matching on the id — so a second ingestion of the
same document appends a second copy of every node row (1 row after the
first run, 2 after the second). -/
theorem claim_C2_counterexample :
    (ingestCanonical regsOneMap [] [] "D" docAB {}).2.nodes.length = 1 ∧
    (ingestCanonical regsOneMap [] [] "D" docAB
        (ingestCanonical regsOneMap [] [] "D" docAB {}).2).2.nodes.length = 2 ∧
    (1 : Nat) ≠ 2 :=
  ⟨rfl, rfl, by decide⟩

/-- Claim C2, amended: processing a document neither consults nor is
affected by prior graph state — it appends exactly the document's node
and relationship rows to whatever is already there (the rows the same
run produces from an empty sink), and returns an outcome independent of
that state.  Re-ingesting the same raw document therefore appends a
second, identical copy of every row instead of leaving the graph
unchanged. -/
theorem claim_C2_amended (regs : List RegisterSchema) (es : List (String × EntitySchema))
    (rels : List RelationshipSchema) (docId : String) (doc : J) (st : GraphState) :
    ingestCanonical regs es rels docId doc st =
      ((ingestCanonical regs es rels docId doc {}).1,
       { nodes := st.nodes ++ (ingestCanonical regs es rels docId doc {}).2.nodes,
         rels := st.rels ++ (ingestCanonical regs es rels docId doc {}).2.rels }) := by
  unfold ingestCanonical
  cases resolveVariantImpl doc regs with
  | error e => simp
  | ok pr =>
    obtain ⟨ov, amb⟩ := pr
    cases ov with
    | none => simp
    | some v =>
      dsimp only
      cases mapEntities es docId doc v with
      | error e => simp
      | ok entities =>
        dsimp only [upsertNodes, upsertRelationships]
        by_cases hrels : (buildRelationships rels docId entities).isEmpty = true
        · simp [hrels]
        · simp [hrels]

/-- The heuristic classification either adds nothing or adds exactly the
`EIS`/`PERSON` pair — in particular it never touches `file_path`. -/
theorem heuristicMeta_cases (obj : J) :
    heuristicMeta obj = [] ∨
    heuristicMeta obj = [("registry_code", J.str "EIS"), ("service_code", J.str "PERSON")] := by
  unfold heuristicMeta
  split
  · split
    · split
      · split
        · right; rfl
        · left; rfl
      · left; rfl
    · left; rfl
  · left; rfl

/-- Whatever `JsonAdapter.process` returns records the raw document's
file path under `meta["file_path"]` — the canonical serialization, and
hence the canonical hash, depends on the path. -/
theorem process_meta_file_path (p ct raw : String) (d : CanonDoc)
    (h : jsonAdapterProcess p ct raw = some d) :
    jLookup d.meta "file_path" = some (J.str p) := by
  unfold jsonAdapterProcess at h
  dsimp only at h
  cases hl : pyJsonLoads (stripTrailingCommas raw) with
  | none => rw [hl] at h; exact Option.noConfusion h
  | some obj =>
    rw [hl] at h
    dsimp only at h
    have hd := Option.some.inj h
    subst hd
    rcases heuristicMeta_cases obj with he | he <;> rw [he] <;> rfl

/-- The raw text `{"a": "b"}` (embedded with escaped braces). -/
def rawSmall : String := "\x7b\"a\": \"b\"\x7d"

/-- Claim C6.  The claim reads: two byte-equal raw documents with the
same declared content type canonicalize to byte-equal serializations of
`{meta, data}` — and so equal `canonical_hash` — regardless of the
documents' file paths.  It fails: `JsonAdapter.process` seeds `meta`
with `{"file_path": ..., "content_type": ...}` and serializes `meta`
into the hashed bytes, so the same bytes under two different paths
produce different serializations and different hashes. -/
theorem claim_C6_counterexample :
    (jsonAdapterProcess "p1.json" "application/json" rawSmall).map canonSerialization ≠
      (jsonAdapterProcess "p2.json" "application/json" rawSmall).map canonSerialization ∧
    (jsonAdapterProcess "p1.json" "application/json" rawSmall).map canonHash ≠
      (jsonAdapterProcess "p2.json" "application/json" rawSmall).map canonHash := by
  have e1 : (jsonAdapterProcess "p1.json" "application/json" rawSmall).map canonSerialization =
      some "\x7b\"data\": \x7b\"a\": \"b\"\x7d, \"meta\": \x7b\"content_type\": \"application/json\", \"file_path\": \"p1.json\"\x7d\x7d" := by rfl
  have e2 : (jsonAdapterProcess "p2.json" "application/json" rawSmall).map canonSerialization =
      some "\x7b\"data\": \x7b\"a\": \"b\"\x7d, \"meta\": \x7b\"content_type\": \"application/json\", \"file_path\": \"p2.json\"\x7d\x7d" := by rfl
  have e3 : (jsonAdapterProcess "p1.json" "application/json" rawSmall).map canonHash =
      some "4afd2ee6738b40a52501b2fefd21b9b10a1154ddeff2177cf6f619028d6b9d46" := by rfl
  have e4 : (jsonAdapterProcess "p2.json" "application/json" rawSmall).map canonHash =
      some "41c582f4022653f7b83c82890c700a3b924210ab7c24ea3b120e3b951a47497d" := by rfl
  constructor
  · rw [e1, e2]; decide
  · rw [e3, e4]; decide

/-- Claim C6, amended: canonicalization is a pure function of the
decoded bytes, the declared content type and the file path — byte-equal
raw documents with the same declared type and the same file path
produce byte-equal canonical serializations and equal canonical hashes —
and the file path is part of `meta`, so it is hashed: path-independence
does not hold. -/
theorem claim_C6_amended (p1 p2 ct raw : String) (d1 d2 : CanonDoc)
    (h1 : jsonAdapterProcess p1 ct raw = some d1)
    (h2 : jsonAdapterProcess p2 ct raw = some d2) :
    (p1 = p2 → canonSerialization d1 = canonSerialization d2 ∧ canonHash d1 = canonHash d2) ∧
    jLookup d1.meta "file_path" = some (J.str p1) ∧
    jLookup d2.meta "file_path" = some (J.str p2) := by
  refine ⟨?_, process_meta_file_path p1 ct raw d1 h1, process_meta_file_path p2 ct raw d2 h2⟩
  intro hp
  subst hp
  rw [h1] at h2
  have hd := Option.some.inj h2
  subst hd
  exact ⟨rfl, rfl⟩

/-- The raw text `{"root": {"result": {"unzr": "U1", "last_name":
"Ivanov",}}}`, with a trailing comma the adapter strips. -/
def rawPerson : String :=
  "\x7b\"root\": \x7b\"result\": \x7b\"unzr\": \"U1\", \"last_name\": \"Ivanov\",\x7d\x7d\x7d"

/-- The canonical document the adapter builds from `rawPerson` at path
`f.json`: the trailing comma is stripped, and the heuristic adds the
`EIS`/`PERSON` classification. -/
def cdPerson : CanonDoc :=
  { meta := [("file_path", J.str "f.json"), ("content_type", J.str "application/json"),
             ("registry_code", J.str "EIS"), ("service_code", J.str "PERSON")],
    data := J.obj [("root", J.obj [("result",
      J.obj [("unzr", J.str "U1"), ("last_name", J.str "Ivanov")])])] }

/-- Claim C6 witness: the amended statement on a concrete document with
a trailing comma — equal inputs (path included) give equal
serializations and hashes, and `meta` records the path. -/
theorem claim_C6_witness :
    canonSerialization cdPerson = canonSerialization cdPerson ∧
    canonHash cdPerson = canonHash cdPerson ∧
    jLookup cdPerson.meta "file_path" = some (J.str "f.json") :=
  have h := claim_C6_amended "f.json" "f.json" "application/json" rawPerson cdPerson cdPerson
    rfl rfl
  ⟨(h.1 rfl).1, (h.1 rfl).2, h.2.1⟩

/-- A rule the `all` loop can score: type and path present and the kind
recognized. -/
def scorable (r : Rule) : Bool :=
  match r.type, r.path with
  | some t, some _ => recognizedAll t
  | _, _ => false

/-- The score carried by a loop result. -/
def loopScore : LoopRes → Nat
  | .early s _ => s
  | .done s _ => s

/-- The `all` loop's final score on normal completion is bounded by the
starting score plus the number of scorable rules. -/
theorem allLoop_done_score (doc : J) :
    ∀ (rules : List Rule) (s : Nat) (rs : List String) (s' : Nat) (rs' : List String),
      allLoop doc rules s rs = .ok (.done s' rs') →
      s' ≤ s + (rules.filter (fun r => scorable r)).length := by
  intro rules
  induction rules with
  | nil =>
    intro s rs s' rs' h
    simp only [allLoop] at h
    injection h with h1
    injection h1 with h2 h3
    omega
  | cons r rest ih =>
    intro s rs s' rs' h
    cases htp : r.type with
    | none =>
      simp only [allLoop, htp] at h
      have := ih s (rs ++ ["bad_rule_missing_type_or_path"]) s' rs' h
      have hs : scorable r = false := by simp [scorable, htp]
      simp only [List.filter_cons, hs, Bool.false_eq_true, if_false]
      omega
    | some t =>
      cases hpp : r.path with
      | none =>
        simp only [allLoop, htp, hpp] at h
        have := ih s (rs ++ ["bad_rule_missing_type_or_path"]) s' rs' h
        have hs : scorable r = false := by simp [scorable, htp, hpp]
        simp only [List.filter_cons, hs, Bool.false_eq_true, if_false]
        omega
      | some pth =>
        simp only [allLoop, htp, hpp] at h
        cases hjp : jpFirst doc pth with
        | error e => rw [hjp] at h; exact absurd h (by simp)
        | ok val =>
          rw [hjp] at h
          dsimp only at h
          by_cases hrec : recognizedAll t = true
          · simp only [hrec, Bool.not_true, Bool.false_eq_true, if_false] at h
            by_cases hok : allRuleOk t r val = true
            · simp only [hok, if_true] at h
              have := ih (s + 1) rs s' rs' h
              have hs : scorable r = true := by simp [scorable, htp, hpp, hrec]
              simp only [List.filter_cons, hs, if_true, List.length_cons]
              omega
            · simp only [hok, Bool.false_eq_true, if_false] at h
              exact absurd h (by simp)
          · have hrec' : recognizedAll t = false := by
              cases hx : recognizedAll t
              · rfl
              · exact absurd hx hrec
            simp only [hrec', Bool.not_false, if_true] at h
            have := ih s (rs ++ ["unsupported_type:" ++ t]) s' rs' h
            have hs : scorable r = false := by simp [scorable, htp, hpp, hrec']
            simp only [List.filter_cons, hs, Bool.false_eq_true, if_false]
            omega

/-- The `none` loop never changes the score. -/
theorem noneLoop_score (doc : J) :
    ∀ (rules : List Rule) (s : Nat) (rs : List String) (res : LoopRes),
      noneLoop doc rules s rs = .ok res → loopScore res = s := by
  intro rules
  induction rules with
  | nil =>
    intro s rs res h
    simp only [noneLoop] at h
    injection h with h1
    rw [← h1]
    rfl
  | cons r rest ih =>
    intro s rs res h
    cases htp : r.type with
    | none =>
      simp only [noneLoop, htp] at h
      exact ih s rs res h
    | some t =>
      cases hpp : r.path with
      | none =>
        simp only [noneLoop, htp, hpp] at h
        exact ih s rs res h
      | some pth =>
        simp only [noneLoop, htp, hpp] at h
        cases hjp : jpFirst doc pth with
        | error e => rw [hjp] at h; exact absurd h (by simp)
        | ok val =>
          rw [hjp] at h
          dsimp only at h
          by_cases hhit : noneRuleHit t r val = true
          · simp only [hhit, if_true] at h
            injection h with h1
            rw [← h1]
            rfl
          · simp only [hhit, Bool.false_eq_true, if_false] at h
            exact ih s rs res h

/-- Filtering out a present element is strictly shortening. -/
theorem filter_length_lt {α : Type} (p : α → Bool) (l : List α) (a : α)
    (ha : a ∈ l) (hp : p a = false) :
    (l.filter p).length < l.length := by
  induction l with
  | nil => cases ha
  | cons x xs ih =>
    rcases List.mem_cons.mp ha with hx | hx
    · subst hx
      simp only [List.filter_cons, hp, Bool.false_eq_true, if_false, List.length_cons]
      exact Nat.lt_succ_of_le (List.length_filter_le p xs)
    · by_cases px : p x = true
      · simp only [List.filter_cons, px, if_true, List.length_cons]
        exact Nat.succ_lt_succ (ih hx)
      · have px' : p x = false := by
          cases hy : p x
          · rfl
          · exact absurd hy px
        simp only [List.filter_cons, px', Bool.false_eq_true, if_false, List.length_cons]
        exact Nat.lt_succ_of_lt (ih hx)

/-- Claim C8.  The claim reads: a predicate whose recognized `all` rules
all succeed and whose `none` rules all miss is matched even in the
presence of unknown-kind rules.  It fails: the unknown rule contributes
a reason and does not short-circuit, but it also contributes no score,
and the final check requires `score == len(all)` — so here, with one
succeeding `json_exists` rule and one unknown-kind rule, the result is
`(matched=False, score=1, ["unsupported_type:frobnicate"])`, not a
match. -/
theorem claim_C8_counterexample :
    evalPredicate docA1
      { all := [ { type := some "json_exists", path := some [Tok.root, Tok.key "a"] },
                 { type := some "frobnicate", path := some [Tok.root, Tok.key "a"] } ] } =
      .ok (false, 1, ["unsupported_type:frobnicate"]) := by
  rfl

/-- Claim C8, amended: a rule of an unknown kind in the `all` clause
records a reason and neither scores nor short-circuits the loop, but —
because the final match condition demands that the score equal the
length of the `all` clause — its presence makes the predicate
non-matched, regardless of the other rules. -/
theorem claim_C8_amended (doc : J) (p : MatchPred) (r : Rule)
    (res : Bool × Nat × List String)
    (hr : r ∈ p.all) (hs : scorable r = false)
    (h : evalPredicate doc p = .ok res) :
    res.1 = false := by
  unfold evalPredicate at h
  cases hall : allLoop doc p.all 0 [] with
  | error e => rw [hall] at h; exact absurd h (by simp)
  | ok lr =>
    rw [hall] at h
    cases lr with
    | early s rs =>
      dsimp only at h
      injection h with h1
      rw [← h1]
    | done s rs =>
      dsimp only at h
      cases hnone : noneLoop doc p.none s rs with
      | error e => rw [hnone] at h; exact absurd h (by simp)
      | ok nr =>
        rw [hnone] at h
        cases nr with
        | early s' rs' =>
          dsimp only at h
          injection h with h1
          rw [← h1]
        | done s' rs' =>
          dsimp only at h
          injection h with h1
          rw [← h1]
          dsimp only
          have hsc : s' = s := noneLoop_score doc p.none s rs (.done s' rs') hnone
          have hbound := allLoop_done_score doc p.all 0 [] s rs hall
          have hlt := filter_length_lt (fun r => scorable r) p.all r hr hs
          have hne : p.all ≠ [] := List.ne_nil_of_mem hr
          have hempty : p.all.isEmpty = false := by
            cases hq : p.all.isEmpty
            · rfl
            · exact absurd (List.isEmpty_iff.mp hq) hne
          simp only [hempty, Bool.false_or, beq_eq_false_iff_ne, ne_eq]
          omega

/-- Claim C8 witness: the amended statement at the concrete predicate of
the counterexample. -/
theorem claim_C8_witness :
    evalPredicate docA1
      { all := [ { type := some "json_exists", path := some [Tok.root, Tok.key "a"] },
                 { type := some "frobnicate", path := some [Tok.root, Tok.key "a"] } ] } =
      .ok (false, 1, ["unsupported_type:frobnicate"]) ∧
    ((false, 1, ["unsupported_type:frobnicate"]) : Bool × Nat × List String).1 = false :=
  ⟨by rfl,
   claim_C8_amended docA1
     { all := [ { type := some "json_exists", path := some [Tok.root, Tok.key "a"] },
                { type := some "frobnicate", path := some [Tok.root, Tok.key "a"] } ] }
     { type := some "frobnicate", path := some [Tok.root, Tok.key "a"] }
     (false, 1, ["unsupported_type:frobnicate"])
     (List.mem_cons_of_mem _ (List.mem_cons_self _ _))
     (by rfl) (by rfl)⟩
